import Mathlib

/-!
Verification of the memory-aware chunking utilities in
`src/src/rcpp_chunking.cpp` (package fmisc).

Embedding conventions:
* C++ `double` arithmetic is modelled by exact rational arithmetic (`ℚ`);
  the spec states the planner's algorithm over real numbers.  The one place
  where IEEE semantics produces a non-finite value that real arithmetic
  cannot represent — dividing by `data_size_mb = 0`, after which
  `static_cast<int>` of the infinite/NaN double is undefined behaviour —
  is modelled by an explicit `undefinedCast` outcome.
* C++ `int` values are modelled by `ℤ`; `int` division (which truncates
  toward zero) is `Int.tdiv`.  C++ integer division by zero is undefined
  behaviour and is modelled by an explicit `undefinedDivision` outcome.
* `Rcpp::NumericVector` is a list of elements, `Rcpp::NumericMatrix` a list
  of rows (each row carrying `ncol` entries; rectangularity is a hypothesis
  where it matters).  Constructing an Rcpp vector/matrix with a negative
  length raises an R error ("negative length vectors are not allowed"),
  modelled by a `negativeLengthError` outcome.  The result types also carry
  an `invalidArgument` outcome: the argument-validation failure kind that
  the spec's §7 asks of a reimplementation.  The C++ code never performs
  such validation, so no definition below ever produces it; it exists so
  that the spec's error-handling claims can be stated and settled.
-/

/-- Outcome of `split_vector_chunks` / `split_matrix_chunks`
(`src/src/rcpp_chunking.cpp`, lines 72–90 and 101–122). -/
inductive SplitResult (α : Type) where
  | ok : List (List α) → SplitResult α
  | negativeLengthError : SplitResult α
  | undefinedDivision : SplitResult α
  | invalidArgument : SplitResult α
deriving DecidableEq

/-- `split_vector_chunks` (lines 72–90): `num_chunks = (n + chunk_size - 1) /
chunk_size` with C `int` division, then for each `i` the chunk holds
`x[start + j]` for `j < chunk_len` where `start = i * chunk_size`,
`end = min(start + chunk_size, n)` and `chunk_len = end - start` — i.e. the
chunk is `(x.drop start).take chunk_len`.  `chunk_size = 0` hits the division
by zero; a negative `num_chunks` or a negative `chunk_len` (the C++ loop
stops at the first one, which changes nothing about the resulting error
value) makes the vector constructor raise the negative-length error.
Generic in the element type: the loop only copies elements. -/
def split_vector_chunks {α : Type} (x : List α) (chunk_size : ℤ) : SplitResult α :=
  if chunk_size = 0 then SplitResult.undefinedDivision
  else
    let n : ℤ := (x.length : ℤ)
    let num_chunks : ℤ := Int.tdiv (n + chunk_size - 1) chunk_size
    if num_chunks < 0 then SplitResult.negativeLengthError
    else if (List.range num_chunks.toNat).any
        (fun (i : ℕ) => decide (min ((i : ℤ) * chunk_size + chunk_size) n - (i : ℤ) * chunk_size < 0)) then
      SplitResult.negativeLengthError
    else
      SplitResult.ok ((List.range num_chunks.toNat).map (fun (i : ℕ) =>
        (x.drop ((i : ℤ) * chunk_size).toNat).take
          (min ((i : ℤ) * chunk_size + chunk_size) n - (i : ℤ) * chunk_size).toNat))

/-- `split_matrix_chunks` (lines 101–122): identical control flow, row-wise
over `mat.nrow()` rows.  The inner loop copies `chunk(r, c) = mat(start + r,
c)` for every `c < mat.ncol()`; since an Rcpp matrix is rectangular this
copies each row verbatim, so a chunk is `(mat.drop start).take chunk_rows`
over the list of rows. -/
def split_matrix_chunks (mat : List (List ℚ)) (chunk_size : ℤ) : SplitResult (List ℚ) :=
  if chunk_size = 0 then SplitResult.undefinedDivision
  else
    let n : ℤ := (mat.length : ℤ)
    let num_chunks : ℤ := Int.tdiv (n + chunk_size - 1) chunk_size
    if num_chunks < 0 then SplitResult.negativeLengthError
    else if (List.range num_chunks.toNat).any
        (fun (i : ℕ) => decide (min ((i : ℤ) * chunk_size + chunk_size) n - (i : ℤ) * chunk_size < 0)) then
      SplitResult.negativeLengthError
    else
      SplitResult.ok ((List.range num_chunks.toNat).map (fun (i : ℕ) =>
        (mat.drop ((i : ℤ) * chunk_size).toNat).take
          (min ((i : ℤ) * chunk_size + chunk_size) n - (i : ℤ) * chunk_size).toNat))

/-- The chunk count `(n + chunk_size - 1) / chunk_size` of line 74/104, for a
positive chunk size (where the C `int` division agrees with `ℕ` division). -/
def chunkCount (n c : ℕ) : ℕ := (n + c - 1) / c

/-- The list of chunks produced by the loop of lines 77–87 for a positive
chunk size: chunk `i` is `(x.drop (i * c)).take c`. -/
def chunkList {α : Type} (x : List α) (c : ℕ) : List (List α) :=
  (List.range (chunkCount x.length c)).map (fun i => (x.drop (i * c)).take c)

/-- Outcome of `calculate_optimal_chunk_size` (lines 135–149). -/
inductive CalcResult where
  | ok : ℤ → CalcResult
  | undefinedCast : CalcResult
  | invalidArgument : CalcResult
deriving DecidableEq

/-- Whether a `CalcResult` is a normally returned value. -/
def CalcResult.isOk : CalcResult → Bool
  | CalcResult.ok _ => true
  | _ => false

/-- `calculate_optimal_chunk_size` (lines 135–149):
`target_chunk_ram = max_ram_mb * target_fraction`;
`chunk_size = static_cast<int>(floor(total_rows * target_chunk_ram /
data_size_mb))`; then the two sequential clamps `if (chunk_size < 1)
chunk_size = 1;` and `if (chunk_size > total_rows) chunk_size = total_rows;`.
With `data_size_mb = 0` the double division yields an infinity or NaN and the
`int` cast is undefined behaviour, modelled as `undefinedCast`. -/
def calculate_optimal_chunk_size (data_size_mb : ℚ) (total_rows : ℤ)
    (max_ram_mb : ℚ) (target_fraction : ℚ) : CalcResult :=
  if data_size_mb = 0 then CalcResult.undefinedCast
  else
    let target_chunk_ram : ℚ := max_ram_mb * target_fraction
    let chunk_size : ℤ := ⌊(total_rows : ℚ) * target_chunk_ram / data_size_mb⌋
    let clamped_low : ℤ := if chunk_size < 1 then 1 else chunk_size
    let clamped : ℤ := if clamped_low > total_rows then total_rows else clamped_low
    CalcResult.ok clamped

/-- State read by `get_ram_usage_cpp` (lines 23–61, Linux branch): whether
`/proc/self/status` can be opened, the status file abstracted to its
(field-name, numeric value) lines — `VmRSS:` values are in KiB — and the
`getrusage` fallback's `ru_maxrss` (KiB on Linux).  The byte-level text
parsing of the C++ is abstracted to this field/value view. -/
structure MemEnv where
  statusFileOpen : Bool
  statusLines : List (String × ℚ)
  ruMaxrssKb : ℚ

/-- `get_ram_usage_cpp` (lines 23–61, Linux branch): if the status file opens,
the first `VmRSS:` line's KiB value divided by 1024, or `0.0` when no such
line exists; otherwise the `getrusage` fallback `ru_maxrss / 1024.0`. -/
def get_ram_usage_cpp (env : MemEnv) : ℚ :=
  if env.statusFileOpen then
    match env.statusLines.find? (fun l => l.1 == "VmRSS:") with
    | some l => l.2 / 1024
    | none => 0
  else env.ruMaxrssKb / 1024

/-- `ram_threshold_exceeded` (lines 159–162): reads the current RAM usage via
`get_ram_usage_cpp` and compares it strictly against `max_ram_mb`. -/
def ram_threshold_exceeded (env : MemEnv) (max_ram_mb : ℚ) : Bool :=
  decide (get_ram_usage_cpp env > max_ram_mb)

/-! ## Supporting lemmas on the chunking loop -/

theorem chunkCount_zero {c : ℕ} (hc : 1 ≤ c) : chunkCount 0 c = 0 := by
  unfold chunkCount
  exact Nat.div_eq_of_lt (by omega)

theorem chunkCount_succ {n c : ℕ} (hc : 1 ≤ c) (hn : 1 ≤ n) :
    chunkCount n c = chunkCount (n - c) c + 1 := by
  by_cases hnc : n ≤ c
  · have h0 : n - c = 0 := by omega
    rw [h0, chunkCount_zero hc]
    unfold chunkCount
    have h1 : n + c - 1 = (n - 1) + c := by omega
    rw [h1, Nat.add_div_right _ (by omega), Nat.div_eq_of_lt (by omega)]
  · unfold chunkCount
    have h1 : n + c - 1 = ((n - c) + c - 1) + c := by omega
    rw [h1, Nat.add_div_right _ (by omega)]

theorem chunkCount_mul_le {n c : ℕ} (hc : 1 ≤ c) {i : ℕ}
    (hi : i < chunkCount n c) : i * c ≤ n := by
  rcases Nat.eq_zero_or_pos n with h0 | h0
  · subst h0
    rw [chunkCount_zero hc] at hi
    omega
  · have h1 : i + 1 ≤ (n + c - 1) / c := hi
    have h2 : (i + 1) * c ≤ n + c - 1 := (Nat.le_div_iff_mul_le (by omega)).mp h1
    have h3 : (i + 1) * c = i * c + c := by ring
    omega

theorem take_length_min {α : Type} (l : List α) (m : ℕ) :
    l.take (min m l.length) = l.take m := by
  rw [List.take_eq_take]
  simp

theorem chunkList_nil {α : Type} {c : ℕ} (hc : 1 ≤ c) :
    chunkList ([] : List α) c = [] := by
  simp [chunkList, chunkCount_zero hc]

theorem chunkList_cons {α : Type} {c : ℕ} (hc : 1 ≤ c) (x : List α) (hx : x ≠ []) :
    chunkList x c = x.take c :: chunkList (x.drop c) c := by
  have hlen : 1 ≤ x.length := List.length_pos.mpr hx
  unfold chunkList
  rw [List.length_drop, chunkCount_succ hc hlen, List.range_succ_eq_map, List.map_cons]
  congr 1
  · simp
  · rw [List.map_map]
    refine List.map_congr_left ?_
    intro i _
    simp only [Function.comp_apply]
    rw [List.drop_drop]
    have h1 : Nat.succ i * c = c + i * c := by rw [Nat.succ_mul, Nat.add_comm]
    rw [h1]

theorem flatten_chunkList {α : Type} (c : ℕ) (hc : 1 ≤ c) (x : List α) :
    (chunkList x c).flatten = x := by
  by_cases hx : x = []
  · subst hx
    rw [chunkList_nil hc]
    rfl
  · rw [chunkList_cons hc x hx, List.flatten_cons,
      flatten_chunkList c hc (x.drop c), List.take_append_drop]
termination_by x.length
decreasing_by
  have hlen : 1 ≤ x.length := List.length_pos.mpr hx
  simp only [List.length_drop]
  omega

theorem length_chunkList {α : Type} (x : List α) (c : ℕ) :
    (chunkList x c).length = chunkCount x.length c := by
  simp [chunkList]

theorem chunkList_get_length {α : Type} (x : List α) {c : ℕ} (hc : 1 ≤ c) {i : ℕ}
    (hi : i + 1 < chunkCount x.length c) (h : i < (chunkList x c).length) :
    ((chunkList x c).get ⟨i, h⟩).length = c := by
  have hgot : (chunkList x c).get ⟨i, h⟩ = (x.drop (i * c)).take c := by
    simp [chunkList]
  rw [hgot, List.length_take, List.length_drop]
  have h1 : i + 2 ≤ (x.length + c - 1) / c := hi
  have h2 : (i + 2) * c ≤ x.length + c - 1 := (Nat.le_div_iff_mul_le (by omega)).mp h1
  have h3 : (i + 2) * c = i * c + 2 * c := by ring
  omega

theorem chunkCount_eq_ceil (n : ℕ) {c : ℕ} (hc : 1 ≤ c) :
    ((chunkCount n c : ℕ) : ℤ) = ⌈(n : ℚ) / (c : ℚ)⌉ := by
  have hc0 : (0 : ℚ) < (c : ℚ) := by exact_mod_cast hc
  have hdm : c * chunkCount n c + (n + c - 1) % c = n + c - 1 :=
    Nat.div_add_mod (n + c - 1) c
  have hmlt : (n + c - 1) % c < c := Nat.mod_lt _ (by omega)
  have hub : n ≤ c * chunkCount n c := by omega
  have hlb : c * chunkCount n c < n + c := by omega
  symm
  rw [Int.ceil_eq_iff]
  constructor
  · rw [lt_div_iff₀ hc0]
    have hq : (c : ℚ) * (chunkCount n c : ℚ) < (n : ℚ) + c := by exact_mod_cast hlb
    push_cast
    nlinarith [hq]
  · rw [div_le_iff₀ hc0]
    have hq : (n : ℚ) ≤ (c : ℚ) * (chunkCount n c : ℚ) := by exact_mod_cast hub
    push_cast
    nlinarith [hq]

theorem chunkList_subset {α : Type} (x : List α) (c : ℕ) :
    ∀ chunk ∈ chunkList x c, chunk ⊆ x := by
  intro chunk hchunk
  obtain ⟨i, _, rfl⟩ := List.mem_map.mp hchunk
  exact List.Subset.trans (List.take_subset _ _) (List.drop_subset _ _)

theorem split_vector_chunks_pos {α : Type} (x : List α) {c : ℕ} (hc : 1 ≤ c) :
    split_vector_chunks x (c : ℤ) = SplitResult.ok (chunkList x c) := by
  have hc0 : ((c : ℤ)) ≠ 0 := by exact_mod_cast Nat.one_le_iff_ne_zero.mp hc
  have hnum : ((x.length : ℤ) + (c : ℤ) - 1) = ((x.length + c - 1 : ℕ) : ℤ) := by omega
  have hdiv : Int.tdiv ((x.length : ℤ) + (c : ℤ) - 1) (c : ℤ)
      = ((chunkCount x.length c : ℕ) : ℤ) := by
    rw [hnum]
    exact_mod_cast (Int.ofNat_tdiv (x.length + c - 1) c).symm
  have hmem : ∀ i ∈ List.range (chunkCount x.length c), i * c ≤ x.length := by
    intro i hi
    exact chunkCount_mul_le hc (List.mem_range.mp hi)
  simp only [split_vector_chunks, if_neg hc0, hdiv]
  rw [if_neg (by omega), Int.toNat_natCast]
  have hany : ((List.range (chunkCount x.length c)).any (fun i =>
      decide (min ((i : ℤ) * (c : ℤ) + (c : ℤ)) ((x.length : ℤ)) - (i : ℤ) * (c : ℤ) < 0)))
      = false := by
    rw [List.any_eq_false]
    intro i hi
    have h1 : i * c ≤ x.length := hmem i hi
    simp only [decide_eq_true_eq, not_lt]
    rw [← Nat.cast_mul]
    omega
  rw [hany]
  simp only [Bool.false_eq_true, if_false]
  congr 1
  unfold chunkList
  refine List.map_congr_left ?_
  intro i hi
  have h1 : i * c ≤ x.length := hmem i hi
  have h2 : ((i : ℤ) * (c : ℤ)).toNat = i * c := by
    rw [← Nat.cast_mul, Int.toNat_natCast]
  have h3 : (min ((i : ℤ) * (c : ℤ) + (c : ℤ)) ((x.length : ℤ)) - (i : ℤ) * (c : ℤ)).toNat
      = min c (x.length - i * c) := by
    rw [← Nat.cast_mul]
    omega
  rw [h2, h3]
  have h4 : min c (x.length - i * c) = min c ((x.drop (i * c)).length) := by
    rw [List.length_drop]
  rw [h4, take_length_min]

theorem split_vector_chunks_nonpos {α : Type} (x : List α) {cs : ℤ} (h : cs ≤ 0) :
    split_vector_chunks x cs = SplitResult.undefinedDivision ∨
    split_vector_chunks x cs = SplitResult.negativeLengthError ∨
    split_vector_chunks x cs = SplitResult.ok [] := by
  by_cases h0 : cs = 0
  · left
    simp [split_vector_chunks, h0]
  · have hneg : cs < 0 := lt_of_le_of_ne h h0
    simp only [split_vector_chunks, if_neg h0]
    rcases lt_trichotomy (Int.tdiv ((x.length : ℤ) + cs - 1) cs) 0 with hlt | heq | hgt
    · right; left
      rw [if_pos hlt]
    · right; right
      rw [if_neg (by omega), heq]
      simp
    · right; left
      rw [if_neg (by omega)]
      have h1 : (0 : ℕ) ∈ List.range (Int.tdiv ((x.length : ℤ) + cs - 1) cs).toNat :=
        List.mem_range.mpr (by omega)
      have hcond : ((List.range (Int.tdiv ((x.length : ℤ) + cs - 1) cs).toNat).any (fun i =>
          decide (min ((i : ℤ) * cs + cs) ((x.length : ℤ)) - (i : ℤ) * cs < 0))) = true := by
        rw [List.any_eq_true]
        refine ⟨0, h1, ?_⟩
        simp only [decide_eq_true_eq]
        push_cast
        omega
      rw [hcond]
      simp

theorem split_matrix_eq_split_vector (mat : List (List ℚ)) (cs : ℤ) :
    split_matrix_chunks mat cs = split_vector_chunks mat cs := rfl

/-! ## Supporting lemmas on the planner -/

theorem calculate_ok_of_ne_zero (d : ℚ) (tr : ℤ) (m tf : ℚ) (hd : d ≠ 0) :
    (calculate_optimal_chunk_size d tr m tf).isOk = true := by
  simp [calculate_optimal_chunk_size, hd, CalcResult.isOk]

theorem calculate_never_invalidArgument (d : ℚ) (tr : ℤ) (m tf : ℚ) :
    calculate_optimal_chunk_size d tr m tf ≠ CalcResult.invalidArgument := by
  by_cases hd : d = 0 <;> simp [calculate_optimal_chunk_size, hd]

/-! ## Claims -/

/-- C2: for every numeric vector `x` and every `chunk_size ≥ 1`, the call
returns normally and concatenating the returned chunks in order reproduces
`x` exactly — same elements, same order, no duplication or loss. -/
theorem C2_vector_roundtrip (x : List ℚ) (cs : ℤ) (h : 1 ≤ cs) :
    split_vector_chunks x cs = SplitResult.ok (chunkList x cs.toNat) ∧
    (chunkList x cs.toNat).flatten = x := by
  obtain ⟨c, rfl⟩ := Int.eq_ofNat_of_zero_le (le_trans zero_le_one h)
  have hc : 1 ≤ c := by exact_mod_cast h
  rw [Int.toNat_natCast]
  exact ⟨split_vector_chunks_pos x hc, flatten_chunkList c hc x⟩

/-- Witness for C2 at the spec's concrete scenario `x = [1,2,3,4,5]`,
`chunk_size = 2`. -/
theorem C2_vector_roundtrip_witness :
    split_vector_chunks ([1, 2, 3, 4, 5] : List ℚ) 2
      = SplitResult.ok (chunkList ([1, 2, 3, 4, 5] : List ℚ) (2 : ℤ).toNat) ∧
    (chunkList ([1, 2, 3, 4, 5] : List ℚ) (2 : ℤ).toNat).flatten = [1, 2, 3, 4, 5] :=
  C2_vector_roundtrip [1, 2, 3, 4, 5] 2 (by decide)

/-- The spec's concrete scenario: `split_vector_chunks([1,2,3,4,5], 2)`
yields `[[1,2],[3,4],[5]]`. -/
theorem split_vector_chunks_example :
    split_vector_chunks ([1, 2, 3, 4, 5] : List ℚ) 2
      = SplitResult.ok [[1, 2], [3, 4], [5]] := by decide

/-- C3: for every vector `x` of length `n` and every `chunk_size ≥ 1`, the
call returns exactly `⌈n / chunk_size⌉` chunks, and every chunk except
possibly the last has length exactly `chunk_size`. -/
theorem C3_chunk_count_sizes (x : List ℚ) (cs : ℤ) (h : 1 ≤ cs) :
    split_vector_chunks x cs = SplitResult.ok (chunkList x cs.toNat) ∧
    (((chunkList x cs.toNat).length : ℤ) = ⌈(x.length : ℚ) / (cs : ℚ)⌉) ∧
    ∀ i : ℕ, i + 1 < (chunkList x cs.toNat).length →
      ∀ hi : i < (chunkList x cs.toNat).length,
        (((chunkList x cs.toNat).get ⟨i, hi⟩).length : ℤ) = cs := by
  obtain ⟨c, rfl⟩ := Int.eq_ofNat_of_zero_le (le_trans zero_le_one h)
  have hc : 1 ≤ c := by exact_mod_cast h
  rw [Int.toNat_natCast]
  refine ⟨split_vector_chunks_pos x hc, ?_, ?_⟩
  · rw [length_chunkList, chunkCount_eq_ceil x.length hc]
    congr 1
  · intro i hlen hi
    have hcount : i + 1 < chunkCount x.length c := by
      rwa [length_chunkList] at hlen
    rw [chunkList_get_length x hc hcount hi]

/-- Witness for C3 at `x = [1,2,3,4,5]`, `chunk_size = 2`: 3 chunks, all but
the last of length 2. -/
theorem C3_chunk_count_sizes_witness :
    split_vector_chunks ([1, 2, 3, 4, 5] : List ℚ) 2
      = SplitResult.ok (chunkList ([1, 2, 3, 4, 5] : List ℚ) (2 : ℤ).toNat) ∧
    (((chunkList ([1, 2, 3, 4, 5] : List ℚ) (2 : ℤ).toNat).length : ℤ)
      = ⌈(([1, 2, 3, 4, 5] : List ℚ).length : ℚ) / ((2 : ℤ) : ℚ)⌉) ∧
    ∀ i : ℕ, i + 1 < (chunkList ([1, 2, 3, 4, 5] : List ℚ) (2 : ℤ).toNat).length →
      ∀ hi : i < (chunkList ([1, 2, 3, 4, 5] : List ℚ) (2 : ℤ).toNat).length,
        (((chunkList ([1, 2, 3, 4, 5] : List ℚ) (2 : ℤ).toNat).get ⟨i, hi⟩).length : ℤ) = 2 :=
  C3_chunk_count_sizes [1, 2, 3, 4, 5] 2 (by decide)

/-- C4: for every rectangular matrix `mat` (every row of length `ncols`) and
every `chunk_size ≥ 1`, the call returns normally, every row of every chunk
keeps the column count `ncols`, and stacking the chunks' rows in order
reproduces `mat` exactly. -/
theorem C4_matrix_roundtrip (mat : List (List ℚ)) (ncols : ℕ) (cs : ℤ)
    (hrect : ∀ row ∈ mat, row.length = ncols) (h : 1 ≤ cs) :
    split_matrix_chunks mat cs = SplitResult.ok (chunkList mat cs.toNat) ∧
    (chunkList mat cs.toNat).flatten = mat ∧
    ∀ chunk ∈ chunkList mat cs.toNat, ∀ row ∈ chunk, row.length = ncols := by
  obtain ⟨c, rfl⟩ := Int.eq_ofNat_of_zero_le (le_trans zero_le_one h)
  have hc : 1 ≤ c := by exact_mod_cast h
  rw [Int.toNat_natCast, split_matrix_eq_split_vector]
  refine ⟨split_vector_chunks_pos mat hc, flatten_chunkList c hc mat, ?_⟩
  intro chunk hchunk row hrow
  exact hrect row (chunkList_subset mat c chunk hchunk hrow)

/-- Witness for C4 at the 3×2 matrix `[[1,2],[3,4],[5,6]]`, `chunk_size = 2`. -/
theorem C4_matrix_roundtrip_witness :
    split_matrix_chunks [[1, 2], [3, 4], [5, 6]] 2
      = SplitResult.ok (chunkList ([[1, 2], [3, 4], [5, 6]] : List (List ℚ)) (2 : ℤ).toNat) ∧
    (chunkList ([[1, 2], [3, 4], [5, 6]] : List (List ℚ)) (2 : ℤ).toNat).flatten
      = [[1, 2], [3, 4], [5, 6]] ∧
    ∀ chunk ∈ chunkList ([[1, 2], [3, 4], [5, 6]] : List (List ℚ)) (2 : ℤ).toNat,
      ∀ row ∈ chunk, row.length = 2 :=
  C4_matrix_roundtrip [[1, 2], [3, 4], [5, 6]] 2 2 (by decide) (by decide)

/-- C1 (amended): the claim as frozen quantifies over `total_rows ≥ 0`, but at
`total_rows = 0` the function returns 0 (see `C1_planner_range_cex` and claim
C10).  For every `total_rows ≥ 1`, whenever the function returns a value
normally, that value lies in the closed range `[1, total_rows]`. -/
theorem C1_planner_range (d : ℚ) (tr : ℤ) (m tf : ℚ) (htr : 1 ≤ tr) (c : ℤ)
    (h : calculate_optimal_chunk_size d tr m tf = CalcResult.ok c) :
    1 ≤ c ∧ c ≤ tr := by
  by_cases hd : d = 0
  · simp [calculate_optimal_chunk_size, hd] at h
  · simp only [calculate_optimal_chunk_size, if_neg hd, CalcResult.ok.injEq] at h
    split_ifs at h <;> omega

/-- Counterexample to C1 as frozen: at `total_rows = 0` (an allowed input,
`total_rows ≥ 0`) the function returns 0, which is not `≥ 1`. -/
theorem C1_planner_range_cex :
    calculate_optimal_chunk_size 1 0 500 (1/10) = CalcResult.ok 0 ∧ ¬ (1 ≤ (0 : ℤ)) := by
  constructor
  · norm_num [calculate_optimal_chunk_size]
  · decide

/-- Witness for C1 (amended) at the spec's concrete planner scenario. -/
theorem C1_planner_range_witness :
    calculate_optimal_chunk_size 1000 100000 500 (1/10) = CalcResult.ok 5000 ∧
    1 ≤ (100000 : ℤ) ∧ (1 ≤ (5000 : ℤ) ∧ (5000 : ℤ) ≤ 100000) := by
  have h : calculate_optimal_chunk_size 1000 100000 500 (1/10) = CalcResult.ok 5000 := by
    norm_num [calculate_optimal_chunk_size]
  exact ⟨h, by decide, C1_planner_range 1000 100000 500 (1/10) (by decide) 5000 h⟩

/-- C5 (amended): `calculate_optimal_chunk_size` performs no input
validation.  On the inputs the spec flags (`total_rows = 0` or
`data_size_mb ≤ 0`) it never signals an InvalidArgument error: for
`data_size_mb = 0` the double division produces an infinity or NaN whose
`int` conversion is undefined behaviour, and for every other flagged input
it returns a normal (clamped) value. -/
theorem C5_planner_no_validation (d : ℚ) (tr : ℤ) (m tf : ℚ)
    (h : tr = 0 ∨ d ≤ 0) :
    calculate_optimal_chunk_size d tr m tf ≠ CalcResult.invalidArgument ∧
    ((d = 0 ∧ calculate_optimal_chunk_size d tr m tf = CalcResult.undefinedCast) ∨
     (d ≠ 0 ∧ (calculate_optimal_chunk_size d tr m tf).isOk = true)) := by
  refine ⟨calculate_never_invalidArgument d tr m tf, ?_⟩
  by_cases hd : d = 0
  · exact Or.inl ⟨hd, by simp [calculate_optimal_chunk_size, hd]⟩
  · exact Or.inr ⟨hd, calculate_ok_of_ne_zero d tr m tf hd⟩

/-- Counterexample to C5 as frozen: at `total_rows = 0`, `data_size_mb = 1`
the function does not fail with an InvalidArgument error — it returns the
value 0 normally. -/
theorem C5_planner_no_validation_cex :
    calculate_optimal_chunk_size 1 0 500 (1/10) = CalcResult.ok 0 ∧
    CalcResult.ok 0 ≠ CalcResult.invalidArgument := by
  constructor
  · norm_num [calculate_optimal_chunk_size]
  · decide

/-- Witness for C5 (amended) at `total_rows = 0`, `data_size_mb = 1`. -/
theorem C5_planner_no_validation_witness :
    calculate_optimal_chunk_size 1 0 500 (1/10) ≠ CalcResult.invalidArgument ∧
    (((1 : ℚ) = 0 ∧ calculate_optimal_chunk_size 1 0 500 (1/10) = CalcResult.undefinedCast) ∨
     ((1 : ℚ) ≠ 0 ∧ (calculate_optimal_chunk_size 1 0 500 (1/10)).isOk = true)) :=
  C5_planner_no_validation 1 0 500 (1/10) (Or.inl rfl)

/-- C7: holding `total_rows`, `max_ram_mb` and `target_fraction` fixed, for
positive `d1 ≤ d2`, the chunk size returned for `data_size_mb = d2` is never
larger than the one returned for `data_size_mb = d1`. -/
theorem C7_planner_antitone (tr : ℤ) (m tf : ℚ) (d1 d2 : ℚ)
    (hd1 : 0 < d1) (h12 : d1 ≤ d2) (c1 c2 : ℤ)
    (e1 : calculate_optimal_chunk_size d1 tr m tf = CalcResult.ok c1)
    (e2 : calculate_optimal_chunk_size d2 tr m tf = CalcResult.ok c2) :
    c2 ≤ c1 := by
  have hd1n : d1 ≠ 0 := ne_of_gt hd1
  have hd2 : (0 : ℚ) < d2 := lt_of_lt_of_le hd1 h12
  have hd2n : d2 ≠ 0 := ne_of_gt hd2
  simp only [calculate_optimal_chunk_size, if_neg hd1n, CalcResult.ok.injEq] at e1
  simp only [calculate_optimal_chunk_size, if_neg hd2n, CalcResult.ok.injEq] at e2
  by_cases hpos : 0 ≤ (tr : ℚ) * (m * tf)
  · have hdiv : (tr : ℚ) * (m * tf) / d2 ≤ (tr : ℚ) * (m * tf) / d1 :=
      div_le_div_of_nonneg_left hpos hd1 h12
    have hfl : ⌊(tr : ℚ) * (m * tf) / d2⌋ ≤ ⌊(tr : ℚ) * (m * tf) / d1⌋ :=
      Int.floor_le_floor hdiv
    split_ifs at e1 e2 <;> omega
  · push_neg at hpos
    have hf1 : ⌊(tr : ℚ) * (m * tf) / d1⌋ ≤ 0 :=
      Int.floor_nonpos (div_nonpos_of_nonpos_of_nonneg (le_of_lt hpos) (le_of_lt hd1))
    have hf2 : ⌊(tr : ℚ) * (m * tf) / d2⌋ ≤ 0 :=
      Int.floor_nonpos (div_nonpos_of_nonpos_of_nonneg (le_of_lt hpos) (le_of_lt hd2))
    split_ifs at e1 e2 <;> omega

/-- Witness for C7: doubling the data size from 1000 to 2000 MB halves the
returned chunk size (5000 to 2500). -/
theorem C7_planner_antitone_witness :
    calculate_optimal_chunk_size 1000 100000 500 (1/10) = CalcResult.ok 5000 ∧
    calculate_optimal_chunk_size 2000 100000 500 (1/10) = CalcResult.ok 2500 ∧
    (2500 : ℤ) ≤ 5000 := by
  have h1 : calculate_optimal_chunk_size 1000 100000 500 (1/10) = CalcResult.ok 5000 := by
    norm_num [calculate_optimal_chunk_size]
  have h2 : calculate_optimal_chunk_size 2000 100000 500 (1/10) = CalcResult.ok 2500 := by
    norm_num [calculate_optimal_chunk_size]
  exact ⟨h1, h2, C7_planner_antitone 100000 500 (1/10) 1000 2000 (by norm_num)
    (by norm_num) 5000 2500 h1 h2⟩

/-- C9: the spec's concrete scenario — `data_size_mb = 1000`,
`total_rows = 100000`, `max_ram_mb = 500`, `target_fraction = 0.1` yields
exactly `floor(100000 * 50 / 1000) = 5000`. -/
theorem C9_concrete_scenario :
    calculate_optimal_chunk_size 1000 100000 500 (1/10) = CalcResult.ok 5000 := by
  norm_num [calculate_optimal_chunk_size]

/-- C10: with `total_rows = 0` and any positive `data_size_mb`, the function
returns 0 normally (no error): the raw floor value 0 is raised to 1 by the
lower clamp, then the upper clamp — applied after the lower one — caps it
back to `total_rows = 0`. -/
theorem C10_zero_total_rows (d m tf : ℚ) (hd : 0 < d) :
    calculate_optimal_chunk_size d 0 m tf = CalcResult.ok 0 := by
  have hdn : d ≠ 0 := ne_of_gt hd
  simp only [calculate_optimal_chunk_size, if_neg hdn, CalcResult.ok.injEq]
  norm_num

/-- Witness for C10 at `data_size_mb = 1`, `max_ram_mb = 500`,
`target_fraction = 0.1`. -/
theorem C10_zero_total_rows_witness :
    calculate_optimal_chunk_size 1 0 500 (1/10) = CalcResult.ok 0 :=
  C10_zero_total_rows 1 500 (1/10) (by norm_num)

/-- C6 (amended): neither splitter validates `chunk_size`: for every
`chunk_size ≤ 0` the call never signals an InvalidArgument error — it
either reaches the integer division by zero (`chunk_size = 0`, undefined
behaviour), raises the R negative-length allocation error, or silently
returns an empty chunk list. -/
theorem C6_chunker_no_validation (x : List ℚ) (mat : List (List ℚ)) (cs : ℤ)
    (h : cs ≤ 0) :
    (split_vector_chunks x cs ≠ SplitResult.invalidArgument ∧
     (split_vector_chunks x cs = SplitResult.undefinedDivision ∨
      split_vector_chunks x cs = SplitResult.negativeLengthError ∨
      split_vector_chunks x cs = SplitResult.ok [])) ∧
    (split_matrix_chunks mat cs ≠ SplitResult.invalidArgument ∧
     (split_matrix_chunks mat cs = SplitResult.undefinedDivision ∨
      split_matrix_chunks mat cs = SplitResult.negativeLengthError ∨
      split_matrix_chunks mat cs = SplitResult.ok [])) := by
  have hv := split_vector_chunks_nonpos x h
  have hm := split_vector_chunks_nonpos mat h
  rw [split_matrix_eq_split_vector]
  constructor
  · refine ⟨?_, hv⟩
    rcases hv with h1 | h1 | h1 <;> rw [h1] <;> simp
  · refine ⟨?_, hm⟩
    rcases hm with h1 | h1 | h1 <;> rw [h1] <;> simp

/-- Counterexample to C6 as frozen: at `chunk_size = 0` both splitters reach
the integer division by zero instead of failing with an InvalidArgument
error, and at `chunk_size = -10` the vector splitter silently returns an
empty chunk list (a zero-length chunk count) for a five-element vector. -/
theorem C6_chunker_no_validation_cex :
    (split_vector_chunks ([1, 2, 3] : List ℚ) 0 = SplitResult.undefinedDivision ∧
     split_vector_chunks ([1, 2, 3] : List ℚ) 0 ≠ SplitResult.invalidArgument) ∧
    (split_matrix_chunks [[1], [2]] 0 = SplitResult.undefinedDivision ∧
     split_matrix_chunks [[1], [2]] 0 ≠ SplitResult.invalidArgument) ∧
    split_vector_chunks ([1, 2, 3, 4, 5] : List ℚ) (-10) = SplitResult.ok [] := by
  decide

/-- Witness for C6 (amended) at `chunk_size = 0`. -/
theorem C6_chunker_no_validation_witness :
    (split_vector_chunks ([1, 2, 3] : List ℚ) 0 ≠ SplitResult.invalidArgument ∧
     (split_vector_chunks ([1, 2, 3] : List ℚ) 0 = SplitResult.undefinedDivision ∨
      split_vector_chunks ([1, 2, 3] : List ℚ) 0 = SplitResult.negativeLengthError ∨
      split_vector_chunks ([1, 2, 3] : List ℚ) 0 = SplitResult.ok [])) ∧
    (split_matrix_chunks [[1], [2]] 0 ≠ SplitResult.invalidArgument ∧
     (split_matrix_chunks [[1], [2]] 0 = SplitResult.undefinedDivision ∨
      split_matrix_chunks [[1], [2]] 0 = SplitResult.negativeLengthError ∨
      split_matrix_chunks [[1], [2]] 0 = SplitResult.ok [])) :=
  C6_chunker_no_validation [1, 2, 3] [[1], [2]] 0 (by decide)

/-- C8: `ram_threshold_exceeded(max_ram_mb)` returns true iff the process
memory reading obtained through the same read path (`get_ram_usage_cpp`,
over the modelled OS state) is strictly greater than `max_ram_mb`. -/
theorem C8_threshold_iff (env : MemEnv) (max_ram_mb : ℚ) :
    ram_threshold_exceeded env max_ram_mb = true ↔
      get_ram_usage_cpp env > max_ram_mb := by
  simp [ram_threshold_exceeded]

/-- The spec's mocked-reader scenarios: a 100 MiB reading (VmRSS 102400 KiB)
against a 50 MiB ceiling exceeds; a 40 MiB reading (40960 KiB) against a
50 MiB ceiling does not. -/
theorem ram_threshold_exceeded_examples :
    ram_threshold_exceeded ⟨true, [("VmRSS:", 102400)], 0⟩ 50 = true ∧
    ram_threshold_exceeded ⟨true, [("VmRSS:", 40960)], 0⟩ 50 = false := by
  constructor <;> norm_num [ram_threshold_exceeded, get_ram_usage_cpp, List.find?]
